import Mathlib

/-
Verification of the vectorized, parallelized Mandelbrot escape-time kernel.

The embedding below models the C++ sources:
  * MBThreadsAndAVX.cpp : scalar reference `mandelbrot`, the AVX batch
    evaluator `mandelbrotAVX` (local registers, unmasked counter increment,
    batch-wide break), and the row partitioner `mandelbrotThreads`.
  * MBAVXReal.cpp : the AVX batch evaluator variant with a per-lane masked
    counter increment (z updated before the escape test of the old z).
  * MandelbrotSDL2.cpp : the goto-loop AVX variant whose iteration register
    `_n` is a global that is never reset between batches.
  * the shared color mapper `getColor` and the pixel writeback.

Double-precision arithmetic is modelled exactly over the rationals: every
operation the kernels perform on coordinates (add, sub, mul, div, compare)
is exact real arithmetic here, and `sin` in the color mapper is the real
sine.  Machine-width constants (SCREEN_WIDTH, SCREEN_HEIGHT, MAX_ITER,
THREAD_COUNT) are the tunable configuration parameters of spec section 6,
so they appear as explicit arguments.
-/

namespace MB

/-- Four SIMD lanes of a 256-bit register holding 64-bit values. -/
abbrev Lane (α : Type) := Fin 4 → α

/-- Squared magnitude zr*zr + zi*zi, the escape quantity both kernels test. -/
def norm2 (zr zi : ℚ) : ℚ := zr * zr + zi * zi

/-! ### Scalar reference, MBThreadsAndAVX.cpp lines 41-51

`while (std::norm(z) <= 4.0 && iter < MAX_ITER) { z = z*z + c; iter++; }`
The iteration cap is the `maxIter` configuration constant, passed here as a
parameter; `fuel` counts the remaining iterations allowed by `iter < cap`. -/

def mandelbrotLoop (cr ci : ℚ) : ℕ → ℚ → ℚ → ℕ → ℕ
  | 0, _, _, iter => iter
  | fuel + 1, zr, zi, iter =>
    if norm2 zr zi ≤ 4 then
      mandelbrotLoop cr ci fuel (zr * zr - zi * zi + cr) (2 * zr * zi + ci) (iter + 1)
    else iter

/-- Scalar escape count for c = cr + ci*I with cap `cap` (an int in C++). -/
def mandelbrot (cr ci : ℚ) (cap : ℤ) : ℕ := mandelbrotLoop cr ci cap.toNat 0 0 0

/-! ### Batch evaluator of MBThreadsAndAVX.cpp lines 61-92

Per batch: `_iter = 0`, `_zr = _zi = 0`; then for k < max_iterations:
mask1 holds the lanes with |z|^2 < 4; if no lane is active, break;
otherwise z is advanced on ALL lanes and `_iter` is incremented on ALL
lanes (`_iter = _mm256_add_epi64(_iter, _one)` carries no mask). -/

structure AVXState where
  zr : Lane ℚ
  zi : Lane ℚ
  iter : Lane ℕ

/-- Lane l is still iterating: its current |z|^2 is below 4 (mask1). -/
def avxActive (s : AVXState) (l : Fin 4) : Prop := norm2 (s.zr l) (s.zi l) < 4

instance (s : AVXState) (l : Fin 4) : Decidable (avxActive s l) := by
  unfold avxActive; infer_instance

/-- Negation of `_mm256_testz_si256(_mask2, _mask2)`: some lane is active. -/
def anyActive (s : AVXState) : Prop :=
  avxActive s 0 ∨ avxActive s 1 ∨ avxActive s 2 ∨ avxActive s 3

instance (s : AVXState) : Decidable (anyActive s) := by
  unfold anyActive; infer_instance

/-- Loop body once the break was not taken: z and the counter advance on
every lane (the source applies no per-lane mask to either update). -/
def avxBody (cr ci : Lane ℚ) (s : AVXState) : AVXState :=
  { zr := fun l => s.zr l * s.zr l - s.zi l * s.zi l + cr l
    zi := fun l => 2 * s.zr l * s.zi l + ci l
    iter := fun l => s.iter l + 1 }

/-- The k-loop with `fuel` iterations remaining. -/
def avxLoop (cr ci : Lane ℚ) : ℕ → AVXState → AVXState
  | 0, s => s
  | fuel + 1, s => if anyActive s then avxLoop cr ci fuel (avxBody cr ci s) else s

/-- Per-batch initialization: zReal = zImag = 0 and `_iter = 0`. -/
def avxInit : AVXState := ⟨fun _ => 0, fun _ => 0, fun _ => 0⟩

/-- One batch evaluation of mandelbrotAVX with cap `max_iterations`. -/
def avxBatch (cr ci : Lane ℚ) (cap : ℤ) : AVXState := avxLoop cr ci cap.toNat avxInit

/-- Iteration count returned for lane l. -/
def avxCount (cr ci : Lane ℚ) (cap : ℤ) (l : Fin 4) : ℕ := (avxBatch cr ci cap).iter l

/-! ### Batch evaluator of MBAVXReal.cpp lines 47-93

Per pass of the inner loop: z is advanced FIRST on all lanes, the escape
test then uses the z from the top of the pass (`_zr2`, `_zi2` are computed
before the update); mask2 = (max_iterations > _n) AND (old |z|^2 < 4);
`_n` is incremented only on mask2 lanes; break when mask2 is all zero.
The enclosing `for` runs at most MAX_ITER = 1000 passes. -/

structure RealState where
  zr : Lane ℚ
  zi : Lane ℚ
  n : Lane ℤ

/-- Mask2 of MBAVXReal for lane l: counter below cap and old |z|^2 < 4. -/
def realAct (cap : ℤ) (s : RealState) (l : Fin 4) : Prop :=
  s.n l < cap ∧ norm2 (s.zr l) (s.zi l) < 4

instance (cap : ℤ) (s : RealState) (l : Fin 4) : Decidable (realAct cap s l) := by
  unfold realAct; infer_instance

/-- Some lane has mask2 set. -/
def realAny (cap : ℤ) (s : RealState) : Prop :=
  realAct cap s 0 ∨ realAct cap s 1 ∨ realAct cap s 2 ∨ realAct cap s 3

instance (cap : ℤ) (s : RealState) : Decidable (realAny cap s) := by
  unfold realAny; infer_instance

/-- One pass: unmasked z update, masked counter increment. -/
def realStep (cr ci : Lane ℚ) (cap : ℤ) (s : RealState) : RealState :=
  { zr := fun l => s.zr l * s.zr l - s.zi l * s.zi l + cr l
    zi := fun l => 2 * s.zr l * s.zi l + ci l
    n := fun l => s.n l + if realAct cap s l then 1 else 0 }

/-- The pass loop: the executed pass always updates the state; the loop
continues only while some lane had mask2 set at the top of the pass. -/
def realLoop (cr ci : Lane ℚ) (cap : ℤ) : ℕ → RealState → RealState
  | 0, s => s
  | fuel + 1, s =>
    if realAny cap s then realLoop cr ci cap fuel (realStep cr ci cap s)
    else realStep cr ci cap s

/-- One batch of MBAVXReal's mandelbrotAVX: z and `_n` zeroed per batch,
outer loop bounded by the MAX_ITER = 1000 constant. -/
def realBatch (cr ci : Lane ℚ) (cap : ℤ) : RealState :=
  realLoop cr ci cap 1000 ⟨fun _ => 0, fun _ => 0, fun _ => 0⟩

/-! ### Batch evaluator of MandelbrotSDL2.cpp lines 49-164

The registers are globals (lines 43-46).  Each `goto repeat` pass resets
`_zr = _zi = 0` and recomputes one recurrence step from that zero (so the
tested |z|^2 is always 0 and mask1 is always true), but `_n` is NEVER
reset: the batch starts from whatever `_n` the previous batch (or the
previous call) left behind.  mask2 = (iterations > _n) AND mask1;
`_n` += mask2; loop while any mask2 lane is set.  The state passed in is
the global register file at the start of the batch. -/

structure SDLState where
  zr : Lane ℚ
  zi : Lane ℚ
  n : Lane ℤ

/-- Mask2 of MandelbrotSDL2 for lane l.  The z tested is the per-pass
reset z = 0, whose squared magnitude 0*0 + 0*0 is below 4 always. -/
def sdlAct (its : ℤ) (s : SDLState) (l : Fin 4) : Prop :=
  s.n l < its ∧ norm2 0 0 < 4

instance (its : ℤ) (s : SDLState) (l : Fin 4) : Decidable (sdlAct its s l) := by
  unfold sdlAct; infer_instance

/-- Some lane has mask2 set (`_mm256_movemask_pd(...) > 0`). -/
def sdlAny (its : ℤ) (s : SDLState) : Prop :=
  sdlAct its s 0 ∨ sdlAct its s 1 ∨ sdlAct its s 2 ∨ sdlAct its s 3

instance (its : ℤ) (s : SDLState) : Decidable (sdlAny its s) := by
  unfold sdlAny; infer_instance

/-- One `repeat` pass: z is reset to 0 and advanced one step (becoming c),
and `_n` is incremented on mask2 lanes. -/
def sdlPass (cr ci : Lane ℚ) (its : ℤ) (s : SDLState) : SDLState :=
  { zr := fun l => 0 * 0 - 0 * 0 + cr l
    zi := fun l => 2 * (0 * 0) + ci l
    n := fun l => s.n l + if sdlAct its s l then 1 else 0 }

/-- The goto loop; the executed pass always updates, the loop continues
while any mask2 lane was set at the top of the pass. -/
def sdlLoop (cr ci : Lane ℚ) (its : ℤ) : ℕ → SDLState → SDLState
  | 0, s => s
  | fuel + 1, s =>
    if sdlAny its s then sdlLoop cr ci its fuel (sdlPass cr ci its s)
    else sdlPass cr ci its s

/-- One batch of MandelbrotSDL2's mandelbrotAVX, started on the incoming
global register state `s` (there is no per-batch reset of `_n`).  The
fuel `its.toNat + 1` covers every pass the goto loop performs when the
incoming counters are nonnegative, which they are in every program run. -/
def sdlBatch (cr ci : Lane ℚ) (its : ℤ) (s : SDLState) : SDLState :=
  sdlLoop cr ci its (its.toNat + 1) s

/-- All-zero register file: the global state at program start. -/
def sdlInit : SDLState := ⟨fun _ => 0, fun _ => 0, fun _ => 0⟩

/-! ### Sample-space mapper (spec 4.1; MBThreadsAndAVX.cpp lines 69-75) -/

/-- Real part assigned to pixel column j. -/
def mapRe (W : ℕ) (zoom offsetX : ℚ) (j : ℕ) : ℚ :=
  ((j : ℚ) - W / 2) * 4 / (W * zoom) + offsetX

/-- Imaginary part assigned to pixel row i. -/
def mapIm (H : ℕ) (zoom offsetY : ℚ) (i : ℕ) : ℚ :=
  ((i : ℚ) - H / 2) * 4 / (H * zoom) + offsetY

/-- The four c real parts of the batch starting at column j (the
`_mm256_set_pd` call lists them from lane 3 down to lane 0, so lane l
holds column j + l). -/
def batchCr (W : ℕ) (zoom offsetX : ℚ) (j : ℕ) : Lane ℚ :=
  fun l => mapRe W zoom offsetX (j + l)

/-- Concrete lanes used as test inputs. -/
def cThree : Lane ℚ := fun _ => 3

def cZero : Lane ℚ := fun _ => 0

def cOne : Lane ℚ := fun _ => 1

def cSpike : Lane ℚ := fun l => if l = 0 then 3 else 0

/-! ### Color mapper (spec 4.3; MBThreadsAndAVX.cpp lines 28-38)

`static_cast<uint8_t>(128.0 + 127.0 * sin(6.28318*t + phase))` truncates
the double toward zero; the value is always in (0, 256), so the cast is
the floor.  `t = double(iter) / MAX_ITER`; the MAX_ITER configuration
constant is the `maxIter` parameter here. -/

noncomputable def chan (t phase : ℝ) : ℤ :=
  ⌊(128 : ℝ) + 127 * Real.sin (6.28318 * t + phase)⌋

noncomputable def getColor (iter maxIter : ℤ) : ℤ × ℤ × ℤ :=
  if iter = maxIter then (0, 0, 0)
  else
    (chan ((iter : ℝ) / (maxIter : ℝ)) 0,
     chan ((iter : ℝ) / (maxIter : ℝ)) 2.09439,
     chan ((iter : ℝ) / (maxIter : ℝ)) 4.18879)

/-- Packed 32-bit RGBA value `(r << 24) | (g << 16) | (b << 8) | 0xFF`;
with every channel in [0, 256) the byte fields are disjoint, so the
bitwise OR is this sum. -/
def packRGBA (c : ℤ × ℤ × ℤ) : ℤ :=
  c.1 * 16777216 + c.2.1 * 65536 + c.2.2 * 256 + 255

/-! ### Pixel writeback and row loops (MBThreadsAndAVX.cpp lines 66-116)

The pixel buffer is a flat array of 32-bit cells indexed by
`i * (bytesPerRow / 4) + column`.  Batch readback at column j + k takes
register element `[3 - k]`, i.e. the lane holding column j + (3 - k); the
four writes happen in order k = 0, 1, 2, 3. -/

/-- Pixel buffer: cell index to packed color. -/
def Buf := ℕ → ℤ

/-- One batch at row i, batch start column j: evaluate the four lanes and
write the four cells. -/
noncomputable def renderBatch (W H : ℕ) (ox oy zoom : ℚ) (maxIter : ℤ)
    (bpr : ℕ) (i j : ℕ) (buf : Buf) : Buf :=
  let cnt : Lane ℕ :=
    (avxBatch (batchCr W zoom ox j) (fun _ => mapIm H zoom oy i) maxIter).iter
  let pv : Fin 4 → ℤ := fun m => packRGBA (getColor (cnt m : ℤ) maxIter)
  Function.update (Function.update (Function.update (Function.update buf
    (i * (bpr / 4) + j) (pv 3))
    (i * (bpr / 4) + j + 1) (pv 2))
    (i * (bpr / 4) + j + 2) (pv 1))
    (i * (bpr / 4) + j + 3) (pv 0)

/-- Batch start columns `for (j = 0; j < W; j += 4)`. -/
def batchStarts (W : ℕ) : List ℕ := (List.range ((W + 3) / 4)).map (fun t => 4 * t)

/-- One grid row. -/
noncomputable def renderRow (W H : ℕ) (ox oy zoom : ℚ) (maxIter : ℤ)
    (bpr : ℕ) (i : ℕ) (buf : Buf) : Buf :=
  (batchStarts W).foldl (fun b j => renderBatch W H ox oy zoom maxIter bpr i j b) buf

/-- The row loop `for (i = startY; i < endY; ++i)` of mandelbrotAVX. -/
noncomputable def renderRows (W H : ℕ) (ox oy zoom : ℚ) (maxIter : ℤ)
    (bpr : ℕ) (s e : ℕ) (buf : Buf) : Buf :=
  (List.range' s (e - s)).foldl (fun b i => renderRow W H ox oy zoom maxIter bpr i b) buf

/-! ### Work partitioner (MBThreadsAndAVX.cpp lines 102-116) -/

/-- First row of worker i: `i * rows_per_thread` with integer division. -/
def startY (H N i : ℕ) : ℕ := i * (H / N)

/-- One-past-last row of worker i; the last worker absorbs the remainder. -/
def endY (H N i : ℕ) : ℕ := if i = N - 1 then H else (i + 1) * (H / N)

/-- mandelbrotThreads with worker count N, modelled as the sequential
composition of the per-range row loops (the ranges are disjoint and each
worker writes only its own rows, so thread interleaving is immaterial). -/
noncomputable def threadsRender (N W H : ℕ) (ox oy zoom : ℚ) (maxIter : ℤ)
    (bpr : ℕ) (buf : Buf) : Buf :=
  (List.range N).foldl
    (fun b t => renderRows W H ox oy zoom maxIter bpr (startY H N t) (endY H N t) b) buf

/-- Every (row, column) cell the row loop writes for rows [sY, eY): each
batch start j writes columns j, j+1, j+2, j+3 unconditionally. -/
def writeCells (W sY eY : ℕ) : List (ℕ × ℕ) :=
  (List.range' sY (eY - sY)).flatMap fun i =>
    (batchStarts W).flatMap fun j => [(i, j), (i, j + 1), (i, j + 2), (i, j + 3)]

/-! ### End-to-end scenario of spec section 8: grid 4 x 1, maxIter = 50,
offset (-1/2, 0), zoom 1, bytesPerRow = 16. -/

/-- The single-batch frame of the scenario, over an arbitrary initial
buffer. -/
noncomputable def scenarioOut (buf : Buf) : Buf :=
  renderRows 4 1 (-1/2) 0 1 50 16 0 1 buf

/-- The reference value for the scenario's column j: the packed color of
the scalar escape count at the coordinate the mapper assigns to (j, 0). -/
noncomputable def scenarioRef (j : ℕ) : ℤ :=
  packRGBA (getColor (mandelbrot (mapRe 4 1 (-1/2) j) (mapIm 1 1 0 0) 50 : ℤ) 50)

/-! ## Helper lemmas -/

/-- Once no lane is active the k-loop is inert for any remaining fuel. -/
theorem avxLoop_of_not_any (cr ci : Lane ℚ) (fuel : ℕ) (s : AVXState)
    (h : ¬ anyActive s) : avxLoop cr ci fuel s = s := by
  cases fuel with
  | zero => rfl
  | succ f => simp [avxLoop, h]

/-- The first loop body from the fresh state sets z to c and all counters
to 1. -/
theorem avxBody_init (cr ci : Lane ℚ) :
    avxBody cr ci avxInit = ⟨cr, ci, fun _ => 1⟩ := by
  unfold avxBody avxInit
  congr 1 <;> funext l <;> ring

/-- The fresh state has every lane active. -/
theorem anyActive_init : anyActive avxInit := by
  left
  simp [avxActive, avxInit, norm2]

/-- After z = c, a lane with |c|^2 > 4 is inactive; with all four such, no
lane is active. -/
theorem not_any_of_escaped (cr ci : Lane ℚ) (hc : ∀ l, 4 < norm2 (cr l) (ci l)) :
    ¬ anyActive ⟨cr, ci, fun _ => 1⟩ := by
  have h : ∀ l : Fin 4, ¬ avxActive ⟨cr, ci, fun _ => 1⟩ l := fun l =>
    not_lt.2 (le_of_lt (hc l))
  simp only [anyActive, not_or]
  exact ⟨h 0, h 1, h 2, h 3⟩

/-! ## Claim C1 -/

/-- Claim C1, counterexample: with all four lanes at c = 3 (so |c| > 2)
and maxIter = 0 the evaluator returns 0 for every lane, which is not
strictly less than maxIter; the claim's range `every maxIter >= 0` is too
wide. -/
theorem c1_maxIter_zero_counterexample :
    (∀ l : Fin 4, 4 < norm2 (cThree l) (cZero l)) ∧
    ¬ ((avxCount cThree cZero 0 0 : ℤ) < 0) := by
  constructor
  · intro l
    norm_num [cThree, cZero, norm2]
  · norm_num [avxCount, avxBatch, avxLoop, avxInit]

/-- Claim C1, amended: for a batch with |c| > 2 in every lane (stated as
|c|^2 > 4), each lane of mandelbrotAVX's inner loop returns exactly the
scalar reference count for its own c and cap, for every cap; the count is
strictly below the cap whenever the cap is at least 2 (for cap 0 and 1 the
count equals the cap). -/
theorem avx_escape_eq_scalar (cr ci : Lane ℚ) (cap : ℤ)
    (hc : ∀ l, 4 < norm2 (cr l) (ci l)) :
    ∀ l, avxCount cr ci cap l = mandelbrot (cr l) (ci l) cap ∧
      (2 ≤ cap → (avxCount cr ci cap l : ℤ) < cap) := by
  intro l
  have hz1 : (0 : ℚ) * 0 - 0 * 0 + cr l = cr l := by ring
  have hz2 : 2 * (0 : ℚ) * 0 + ci l = ci l := by ring
  unfold avxCount avxBatch mandelbrot
  rcases hn : cap.toNat with _ | n
  · constructor
    · simp [avxLoop, mandelbrotLoop, avxInit]
    · intro h2
      omega
  · rw [show avxLoop cr ci (n + 1) avxInit
        = avxLoop cr ci n ⟨cr, ci, fun _ => 1⟩ by
      rw [avxLoop, if_pos anyActive_init, avxBody_init]]
    rcases n with _ | m
    · constructor
      · simp only [avxLoop, mandelbrotLoop, norm2]
        norm_num
      · intro h2
        omega
    · rw [avxLoop_of_not_any cr ci (m + 1) _ (not_any_of_escaped cr ci hc)]
      constructor
      · show (1 : ℕ) = mandelbrotLoop (cr l) (ci l) (m + 1 + 1) 0 0 0
        rw [mandelbrotLoop, if_pos (by norm_num [norm2] : norm2 (0:ℚ) 0 ≤ 4)]
        rw [mandelbrotLoop, hz1, hz2, if_neg (not_le.2 (hc l))]
      · intro h2
        have : (1 : ℤ) < cap := by omega
        simpa using this

/-- Witness for the amended C1 at c = 3 in every lane and cap 5. -/
theorem avx_escape_eq_scalar_witness :
    (∀ l : Fin 4, 4 < norm2 (cThree l) (cZero l)) ∧
    (∀ l, avxCount cThree cZero 5 l = mandelbrot (cThree l) (cZero l) 5 ∧
      (2 ≤ (5 : ℤ) → (avxCount cThree cZero 5 l : ℤ) < 5)) :=
  ⟨fun l => by norm_num [cThree, cZero, norm2],
   avx_escape_eq_scalar cThree cZero 5 (fun l => by norm_num [cThree, cZero, norm2])⟩

/-! ## Claim C2 -/

/-- Claim C2 is violated by MBThreadsAndAVX.cpp: `_iter` is incremented
without a per-lane mask.  In the batch c = (3, 0, 0, 0), cap 3, lane 0's
still-iterating flag is already false after step 1 (|z|^2 = 9) and its
counter is then 1, yet at the end of the batch its counter has grown to 3:
the counter of a lane whose flag went false keeps increasing while other
lanes run.  (MBAVXReal.cpp masks the increment and is not affected.) -/
theorem c2_counter_not_frozen :
    ¬ avxActive (avxLoop cSpike cZero 1 avxInit) 0 ∧
    (avxLoop cSpike cZero 1 avxInit).iter 0 = 1 ∧
    (avxBatch cSpike cZero 3).iter 0 = 3 := by
  refine ⟨?_, ?_, ?_⟩ <;>
    norm_num [avxBatch, avxLoop, avxBody, avxInit, anyActive, avxActive,
      norm2, cSpike, cZero]

/-- With every lane outside the escape radius and a positive cap, the
batch loop performs exactly one step, so every lane's counter is 1. -/
theorem avxCount_escaped_one (cr ci : Lane ℚ) (cap : ℤ)
    (hc : ∀ l, 4 < norm2 (cr l) (ci l)) (hcap : 1 ≤ cap) :
    ∀ l, avxCount cr ci cap l = 1 := by
  intro l
  obtain ⟨n, hn⟩ : ∃ n, cap.toNat = n + 1 := ⟨cap.toNat - 1, by omega⟩
  unfold avxCount avxBatch
  rw [hn, show avxLoop cr ci (n + 1) avxInit
        = avxLoop cr ci n ⟨cr, ci, fun _ => 1⟩ by
      rw [avxLoop, if_pos anyActive_init, avxBody_init]]
  rw [avxLoop_of_not_any cr ci n _ (not_any_of_escaped cr ci hc)]

/-- The scalar reference on a point outside the escape radius with a
positive cap also returns 1. -/
theorem mandelbrot_escaped_one (cr ci : ℚ) (cap : ℤ)
    (hc : 4 < norm2 cr ci) (hcap : 1 ≤ cap) :
    mandelbrot cr ci cap = 1 := by
  obtain ⟨n, hn⟩ : ∃ n, cap.toNat = n + 1 := ⟨cap.toNat - 1, by omega⟩
  unfold mandelbrot
  rw [hn, mandelbrotLoop, if_pos (by norm_num [norm2] : norm2 (0 : ℚ) 0 ≤ 4)]
  have hz1 : (0 : ℚ) * 0 - 0 * 0 + cr = cr := by ring
  have hz2 : 2 * (0 : ℚ) * 0 + ci = ci := by ring
  rw [hz1, hz2]
  cases n with
  | zero => rfl
  | succ m => rw [mandelbrotLoop, if_neg (not_le.2 hc)]

/-- One pass of the MBAVXReal loop when no lane has mask2 set: the state
is still updated once, then the loop stops. -/
theorem realLoop_step_of_not_any (cr ci : Lane ℚ) (cap : ℤ) (fuel : ℕ)
    (s : RealState) (h : ¬ realAny cap s) :
    realLoop cr ci cap (fuel + 1) s = realStep cr ci cap s := by
  rw [realLoop, if_neg h]

/-! ## Claim C9 -/

/-- Claim C9, counterexample: with cap 0 and c = 1 in every lane, the
MBAVXReal evaluator still advances z once (z is updated before the
loop-exit test), ending with zr = c = 1 instead of the initial 0; the
claim's clause that no z update is performed is false for this variant. -/
theorem c9_z_update_performed :
    (realBatch cOne cZero 0).zr 0 = 1 ∧ (1 : ℚ) ≠ 0 := by
  have h : ¬ realAny 0 ⟨fun _ => 0, fun _ => 0, fun _ => 0⟩ := by
    norm_num [realAny, realAct]
  constructor
  · rw [realBatch, show (1000 : ℕ) = 999 + 1 from rfl,
      realLoop_step_of_not_any cOne cZero 0 999 _ h]
    norm_num [realStep, cOne]
  · norm_num

/-- Claim C9, amended: with a zero or negative cap every lane of either
evaluator returns count 0; MBThreadsAndAVX's evaluator performs no z
update (z stays 0), while MBAVXReal's evaluator performs exactly one z
update (its batch ends with z = c), which does not affect the counts. -/
theorem cap_nonpos_counts_zero (cr ci : Lane ℚ) (cap : ℤ) (hcap : cap ≤ 0) :
    (∀ l, avxCount cr ci cap l = 0) ∧
    (∀ l, (avxBatch cr ci cap).zr l = 0 ∧ (avxBatch cr ci cap).zi l = 0) ∧
    (∀ l, (realBatch cr ci cap).n l = 0) ∧
    (∀ l, (realBatch cr ci cap).zr l = cr l ∧ (realBatch cr ci cap).zi l = ci l) := by
  have h0 : cap.toNat = 0 := by omega
  have hb : avxBatch cr ci cap = avxInit := by
    unfold avxBatch
    rw [h0]
    rfl
  have hact : ∀ l : Fin 4, ¬ realAct cap (⟨fun _ => 0, fun _ => 0, fun _ => 0⟩ : RealState) l :=
    fun _ h => absurd h.1 (not_lt.2 hcap)
  have hna : ¬ realAny cap ⟨fun _ => 0, fun _ => 0, fun _ => 0⟩ := by
    simp only [realAny, not_or]
    exact ⟨hact 0, hact 1, hact 2, hact 3⟩
  have hr : realBatch cr ci cap
      = realStep cr ci cap ⟨fun _ => 0, fun _ => 0, fun _ => 0⟩ := by
    rw [realBatch, show (1000 : ℕ) = 999 + 1 from rfl,
      realLoop_step_of_not_any cr ci cap 999 _ hna]
  refine ⟨fun l => ?_, fun l => ?_, fun l => ?_, fun l => ?_⟩
  · unfold avxCount
    rw [hb]
    rfl
  · rw [hb]
    exact ⟨rfl, rfl⟩
  · rw [hr]
    simp [realStep, if_neg (hact l)]
  · rw [hr]
    constructor <;> simp [realStep]

/-- Witness for the amended C9 at cap 0 and c = 1 in every lane. -/
theorem cap_nonpos_counts_zero_witness :
    (0 : ℤ) ≤ 0 ∧
    ((∀ l, avxCount cOne cZero 0 l = 0) ∧
     (∀ l, (avxBatch cOne cZero 0).zr l = 0 ∧ (avxBatch cOne cZero 0).zi l = 0) ∧
     (∀ l, (realBatch cOne cZero 0).n l = 0) ∧
     (∀ l, (realBatch cOne cZero 0).zr l = cOne l ∧ (realBatch cOne cZero 0).zi l = cZero l)) :=
  ⟨le_refl 0, cap_nonpos_counts_zero cOne cZero 0 (le_refl 0)⟩

/-! ## Claim C4 -/

/-- Claim C4 is violated by MandelbrotSDL2.cpp: `_n` is a global register
that the evaluator never zeroes.  Starting from the fresh register file, a
batch with iterations = 2 hands the next batch a counter of 2, not 0: the
per-lane iteration counter is not initialized afresh at the start of every
batch. -/
theorem c4_counter_not_reset :
    (sdlBatch cZero cZero 2 sdlInit).n 0 = 2 ∧ (2 : ℤ) ≠ 0 := by
  constructor
  · norm_num [sdlBatch, sdlLoop, sdlPass, sdlAct, sdlAny, sdlInit, norm2, cZero]
  · norm_num

/-! ## Claim C5 -/

/-- Claim C5 is violated by MandelbrotSDL2.cpp: the evaluator reads the
global `_n` left by previous calls.  Called with identical arguments
(c = 0, iterations = 3), it returns counter 3 from the fresh register
file but counter 5 after a previous call with iterations = 5: the batch
evaluation is not a pure function of its arguments. -/
theorem c5_not_pure :
    (sdlBatch cZero cZero 3 sdlInit).n 0 = 3 ∧
    (sdlBatch cZero cZero 3 (sdlBatch cZero cZero 5 sdlInit)).n 0 = 5 ∧
    (3 : ℤ) ≠ 5 := by
  refine ⟨?_, ?_, by norm_num⟩ <;>
    norm_num [sdlBatch, sdlLoop, sdlPass, sdlAct, sdlAny, sdlInit, norm2, cZero]

/-! ## Claim C7 -/

/-- Ranges are ordered: a lower-index worker's range ends no later than a
higher-index worker's range starts. -/
theorem endY_le_startY (H N i j : ℕ) (hij : i < j) (hj : j < N) :
    endY H N i ≤ startY H N j := by
  unfold startY endY
  rw [if_neg (by omega : ¬ i = N - 1)]
  exact Nat.mul_le_mul_right _ (by omega)

/-- Claim C7: for every height H >= 1 and worker count N >= 1 the row
ranges are well formed, stay inside [0, H), cover every row, and are
pairwise disjoint. -/
theorem rowRanges_partition (H N : ℕ) (hH : 1 ≤ H) (hN : 1 ≤ N) :
    (∀ i, i < N → startY H N i ≤ endY H N i) ∧
    (∀ i y, i < N → startY H N i ≤ y → y < endY H N i → y < H) ∧
    (∀ y, y < H → ∃ i, i < N ∧ startY H N i ≤ y ∧ y < endY H N i) ∧
    (∀ i j y, i < N → j < N → startY H N i ≤ y → y < endY H N i →
      startY H N j ≤ y → y < endY H N j → i = j) := by
  have hNH : N * (H / N) ≤ H := by
    rw [Nat.mul_comm]
    exact Nat.div_mul_le_self H N
  refine ⟨?_, ?_, ?_, ?_⟩
  · intro i hi
    unfold startY endY
    by_cases hi' : i = N - 1
    · rw [if_pos hi']
      calc i * (H / N) ≤ N * (H / N) := Nat.mul_le_mul_right _ (by omega)
        _ ≤ H := hNH
    · rw [if_neg hi']
      exact Nat.mul_le_mul_right _ (by omega)
  · intro i y hi _ hy
    unfold endY at hy
    by_cases hi' : i = N - 1
    · rwa [if_pos hi'] at hy
    · rw [if_neg hi'] at hy
      calc y < (i + 1) * (H / N) := hy
        _ ≤ N * (H / N) := Nat.mul_le_mul_right _ (by omega)
        _ ≤ H := hNH
  · intro y hy
    by_cases hr : H / N = 0
    · refine ⟨N - 1, by omega, ?_, ?_⟩
      · unfold startY
        rw [hr]
        omega
      · unfold endY
        rw [if_pos rfl]
        exact hy
    · by_cases hq : y / (H / N) < N - 1
      · refine ⟨y / (H / N), lt_of_lt_of_le hq (Nat.sub_le N 1),
          Nat.div_mul_le_self y (H / N), ?_⟩
        unfold endY
        rw [if_neg (Nat.ne_of_lt hq), Nat.succ_mul]
        have hmod : y % (H / N) < H / N := Nat.mod_lt y (Nat.pos_of_ne_zero hr)
        have hdm : H / N * (y / (H / N)) + y % (H / N) = y := Nat.div_add_mod y (H / N)
        have hcomm : H / N * (y / (H / N)) = y / (H / N) * (H / N) := Nat.mul_comm _ _
        linarith
      · refine ⟨N - 1, by omega, ?_, ?_⟩
        · unfold startY
          calc (N - 1) * (H / N) ≤ y / (H / N) * (H / N) :=
              Nat.mul_le_mul_right _ (by omega)
            _ ≤ y := Nat.div_mul_le_self y (H / N)
        · unfold endY
          rw [if_pos rfl]
          exact hy
  · intro i j y hi hj h1 h2 h3 h4
    rcases lt_trichotomy i j with hij | hij | hij
    · exact absurd (lt_of_lt_of_le h2 (le_trans (endY_le_startY H N i j hij hj) h3))
        (lt_irrefl y)
    · exact hij
    · exact absurd (lt_of_lt_of_le h4 (le_trans (endY_le_startY H N j i hij hi) h1))
        (lt_irrefl y)

/-- Witness for C7 at the configured grid height 600 and worker count 32. -/
theorem rowRanges_partition_witness :
    1 ≤ 600 ∧ 1 ≤ 32 ∧
    ((∀ i, i < 32 → startY 600 32 i ≤ endY 600 32 i) ∧
     (∀ i y, i < 32 → startY 600 32 i ≤ y → y < endY 600 32 i → y < 600) ∧
     (∀ y, y < 600 → ∃ i, i < 32 ∧ startY 600 32 i ≤ y ∧ y < endY 600 32 i) ∧
     (∀ i j y, i < 32 → j < 32 → startY 600 32 i ≤ y → y < endY 600 32 i →
       startY 600 32 j ≤ y → y < endY 600 32 j → i = j)) :=
  ⟨by norm_num, by norm_num, rowRanges_partition 600 32 (by norm_num) (by norm_num)⟩

/-! ## Claim C8 -/

/-- Row loops over adjacent ranges compose: running [s, m) and then
[m, e) is the single run over [s, e). -/
theorem renderRows_trans (W H : ℕ) (ox oy zoom : ℚ) (maxIter : ℤ) (bpr : ℕ)
    (s m e : ℕ) (hsm : s ≤ m) (hme : m ≤ e) (buf : Buf) :
    renderRows W H ox oy zoom maxIter bpr m e
      (renderRows W H ox oy zoom maxIter bpr s m buf)
      = renderRows W H ox oy zoom maxIter bpr s e buf := by
  unfold renderRows
  rw [← List.foldl_append]
  congr 1
  have h1 : s + 1 * (m - s) = m := by omega
  have h2 : (e - m) + (m - s) = e - s := by omega
  rw [← h2, ← List.range'_append, h1]

/-- Folding the first k workers (all below the last index M) runs the
rows [0, k * (H / (M+1))). -/
theorem threads_prefix_rows (W H : ℕ) (ox oy zoom : ℚ) (maxIter : ℤ)
    (bpr : ℕ) (M : ℕ) (buf : Buf) :
    ∀ k, k ≤ M →
      (List.range k).foldl
        (fun b t => renderRows W H ox oy zoom maxIter bpr
          (startY H (M + 1) t) (endY H (M + 1) t) b) buf
      = renderRows W H ox oy zoom maxIter bpr 0 (k * (H / (M + 1))) buf := by
  intro k
  induction k with
  | zero =>
    intro _
    simp [renderRows]
  | succ k ih =>
    intro hk
    rw [List.range_succ, List.foldl_append]
    simp only [List.foldl_cons, List.foldl_nil]
    rw [ih (by omega)]
    rw [startY, endY, if_neg (by omega : ¬ k = (M + 1) - 1)]
    exact renderRows_trans W H ox oy zoom maxIter bpr 0 (k * (H / (M + 1)))
      ((k + 1) * (H / (M + 1))) (Nat.zero_le _)
      (Nat.mul_le_mul_right _ (by omega)) buf

/-- The partitioned frame equals the single full-range run for every
worker count N >= 1. -/
theorem threadsRender_eq_full (N W H : ℕ) (ox oy zoom : ℚ) (maxIter : ℤ)
    (bpr : ℕ) (buf : Buf) (hN : 1 ≤ N) :
    threadsRender N W H ox oy zoom maxIter bpr buf
      = renderRows W H ox oy zoom maxIter bpr 0 H buf := by
  obtain ⟨M, rfl⟩ : ∃ M, N = M + 1 := ⟨N - 1, by omega⟩
  unfold threadsRender
  rw [List.range_succ, List.foldl_append]
  simp only [List.foldl_cons, List.foldl_nil]
  rw [threads_prefix_rows W H ox oy zoom maxIter bpr M buf M le_rfl]
  rw [startY, endY, if_pos (by omega : M = (M + 1) - 1)]
  have hMH : M * (H / (M + 1)) ≤ H := by
    calc M * (H / (M + 1)) ≤ (M + 1) * (H / (M + 1)) :=
        Nat.mul_le_mul_right _ (by omega)
      _ = H / (M + 1) * (M + 1) := Nat.mul_comm _ _
      _ ≤ H := Nat.div_mul_le_self H (M + 1)
  exact renderRows_trans W H ox oy zoom maxIter bpr 0 (M * (H / (M + 1))) H
    (Nat.zero_le _) hMH buf

/-- Claim C8: for every viewport, cap, stride and initial buffer, the
frame computed with worker counts 1, 2 and 32 is the frame of the single
invocation over the full row range [0, H). -/
theorem worker_count_invariant :
    ∀ (W H : ℕ) (ox oy zoom : ℚ) (maxIter : ℤ) (bpr : ℕ) (buf : Buf),
      threadsRender 1 W H ox oy zoom maxIter bpr buf
        = renderRows W H ox oy zoom maxIter bpr 0 H buf ∧
      threadsRender 2 W H ox oy zoom maxIter bpr buf
        = renderRows W H ox oy zoom maxIter bpr 0 H buf ∧
      threadsRender 32 W H ox oy zoom maxIter bpr buf
        = renderRows W H ox oy zoom maxIter bpr 0 H buf :=
  fun W H ox oy zoom maxIter bpr buf =>
    ⟨threadsRender_eq_full 1 W H ox oy zoom maxIter bpr buf (by norm_num),
     threadsRender_eq_full 2 W H ox oy zoom maxIter bpr buf (by norm_num),
     threadsRender_eq_full 32 W H ox oy zoom maxIter bpr buf (by norm_num)⟩

/-! ## Claim C10 -/

/-- Claim C10: when the grid width is a multiple of the lane width 4 and
the row stride (in cells, bytesPerRow / 4) is at least the width, every
cell the kernel writes lies in its own row of the assigned range: the row
is within [sY, eY), the column is below the width, and the flat index
i * (bytesPerRow/4) + column stays below the start of row i + 1. -/
theorem writes_within_rows (W sY eY bpr : ℕ) (h4 : 4 ∣ W) (hw : W ≤ bpr / 4) :
    ∀ p ∈ writeCells W sY eY,
      (sY ≤ p.1 ∧ p.1 < eY) ∧ p.2 < W ∧
      p.1 * (bpr / 4) + p.2 < (p.1 + 1) * (bpr / 4) := by
  intro p hp
  obtain ⟨q, rfl⟩ := h4
  simp only [writeCells, batchStarts, List.mem_flatMap, List.mem_map,
    List.mem_range, List.mem_range'_1] at hp
  obtain ⟨i, ⟨hi1, hi2⟩, j, ⟨t, ht, rfl⟩, hmem⟩ := hp
  have hrow : sY ≤ i ∧ i < eY := by omega
  have hWq : (4 * q + 3) / 4 = q := by omega
  rw [hWq] at ht
  have hidx : ∀ c, c < 4 * q →
      i * (bpr / 4) + c < (i + 1) * (bpr / 4) := by
    intro c hc
    rw [Nat.succ_mul]
    exact Nat.add_lt_add_left (lt_of_lt_of_le hc hw) _
  simp only [List.mem_cons, List.mem_singleton, List.not_mem_nil, or_false] at hmem
  rcases hmem with rfl | rfl | rfl | rfl <;>
    exact ⟨hrow, by omega, hidx _ (by omega)⟩

/-- Witness for C10 at width 8, rows [0, 2), bytesPerRow 32. -/
theorem writes_within_rows_witness :
    4 ∣ 8 ∧ 8 ≤ 32 / 4 ∧
    ∀ p ∈ writeCells 8 0 2,
      (0 ≤ p.1 ∧ p.1 < 2) ∧ p.2 < 8 ∧
      p.1 * (32 / 4) + p.2 < (p.1 + 1) * (32 / 4) :=
  ⟨⟨2, rfl⟩, by norm_num, writes_within_rows 8 0 2 32 ⟨2, rfl⟩ (by norm_num)⟩

/-! ## Claim C3 -/

/-- Claim C3: in the 4 x 1 scenario with maxIter 50, offset (-1/2, 0) and
zoom 1, every output column k holds the packed color of the scalar
reference count at the coordinate the mapper assigns to column k.  (Here
all four sample points lie outside the escape radius, so all four counts
are 1.) -/
theorem scenario_matches_scalar :
    ∀ buf : Buf,
      scenarioOut buf 0 = scenarioRef 0 ∧ scenarioOut buf 1 = scenarioRef 1 ∧
      scenarioOut buf 2 = scenarioRef 2 ∧ scenarioOut buf 3 = scenarioRef 3 := by
  intro buf
  have hc4 : ∀ l : Fin 4,
      4 < norm2 (batchCr 4 1 (-(1/2)) 0 l) ((fun _ => mapIm 1 1 0 0) l) := by
    intro l
    fin_cases l <;> norm_num [batchCr, mapRe, mapIm, norm2]
  have hcnt : ∀ m : Fin 4,
      (avxBatch (batchCr 4 1 (-(1/2)) 0) (fun _ => mapIm 1 1 0 0) 50).iter m = 1 :=
    avxCount_escaped_one (batchCr 4 1 (-(1/2)) 0) (fun _ => mapIm 1 1 0 0) 50 hc4
      (by norm_num)
  have hsc : ∀ j : ℕ, j < 4 → mandelbrot (mapRe 4 1 (-1/2) j) (mapIm 1 1 0 0) 50 = 1 := by
    intro j hj
    refine mandelbrot_escaped_one _ _ 50 ?_ (by norm_num)
    interval_cases j <;> norm_num [mapRe, mapIm, norm2]
  refine ⟨?_, ?_, ?_, ?_⟩ <;>
    unfold scenarioRef <;>
    rw [hsc _ (by norm_num)] <;>
    unfold scenarioOut renderRows renderRow renderBatch batchStarts <;>
    norm_num [List.range_succ, Function.update_apply, hcnt]

/-! ## Claim C6 -/

/-- The sine is 1-Lipschitz. -/
theorem sin_dist_le (a b : ℝ) : |Real.sin a - Real.sin b| ≤ |a - b| := by
  rw [Real.sin_sub_sin]
  have h1 : |Real.sin ((a - b) / 2)| ≤ |(a - b) / 2| := Real.abs_sin_le_abs
  have h2 : |Real.cos ((a + b) / 2)| ≤ 1 := Real.abs_cos_le_one _
  have h3 : (0 : ℝ) ≤ |Real.sin ((a - b) / 2)| := abs_nonneg _
  have h4 : (0 : ℝ) ≤ |(a - b) / 2| := abs_nonneg _
  calc |2 * Real.sin ((a - b) / 2) * Real.cos ((a + b) / 2)|
      = 2 * |Real.sin ((a - b) / 2)| * |Real.cos ((a + b) / 2)| := by
        rw [abs_mul, abs_mul, abs_two]
    _ ≤ 2 * |(a - b) / 2| * 1 := by nlinarith
    _ = |a - b| := by rw [mul_one, abs_div, abs_two]; ring

theorem sqrt_three_gt : (1.732 : ℝ) < Real.sqrt 3 :=
  (Real.lt_sqrt (by norm_num)).mpr (by norm_num)

theorem sqrt_three_lt : Real.sqrt 3 < 1.7321 :=
  (Real.sqrt_lt' (by norm_num)).mpr (by norm_num)

theorem sin_two_pi_div_three : Real.sin (2 * Real.pi / 3) = Real.sqrt 3 / 2 := by
  rw [show 2 * Real.pi / 3 = Real.pi - Real.pi / 3 by ring, Real.sin_pi_sub,
    Real.sin_pi_div_three]

theorem sin_four_pi_div_three :
    Real.sin (4 * Real.pi / 3) = -(Real.sqrt 3 / 2) := by
  rw [show 4 * Real.pi / 3 = Real.pi / 3 + Real.pi by ring, Real.sin_add_pi,
    Real.sin_pi_div_three]

/-- The code's phase constant 2.09439 is within 5.4e-6 of 2*pi/3. -/
theorem sin_g_close : |Real.sin 2.09439 - Real.sqrt 3 / 2| ≤ 0.0000054 := by
  have h1 := sin_dist_le 2.09439 (2 * Real.pi / 3)
  rw [sin_two_pi_div_three] at h1
  refine le_trans h1 ?_
  have hp1 : (3.141592 : ℝ) < Real.pi := Real.pi_gt_d6
  have hp2 : Real.pi < 3.141593 := Real.pi_lt_d6
  rw [abs_le]
  constructor <;> [linarith; linarith]

/-- The code's phase constant 4.18879 is within 2e-6 of 4*pi/3. -/
theorem sin_b_close :
    |Real.sin 4.18879 - -(Real.sqrt 3 / 2)| ≤ 0.000002 := by
  have h1 := sin_dist_le 4.18879 (4 * Real.pi / 3)
  rw [sin_four_pi_div_three] at h1
  refine le_trans h1 ?_
  have hp1 : (3.141592 : ℝ) < Real.pi := Real.pi_gt_d6
  have hp2 : Real.pi < 3.141593 := Real.pi_lt_d6
  rw [abs_le]
  constructor <;> [linarith; linarith]

/-- Red channel of iteration 0: floor of 128 + 127 * sin 0. -/
theorem chan_r_zero : chan 0 0 = 128 := by
  unfold chan
  rw [show (6.28318 : ℝ) * 0 + 0 = 0 by norm_num, Real.sin_zero]
  rw [Int.floor_eq_iff]
  constructor <;> norm_num

/-- Green channel of iteration 0: the truncation lands on 237. -/
theorem chan_g_zero : chan 0 2.09439 = 237 := by
  unfold chan
  rw [show (6.28318 : ℝ) * 0 + 2.09439 = 2.09439 by norm_num]
  have h := abs_le.mp sin_g_close
  have h3 := sqrt_three_gt
  have h4 := sqrt_three_lt
  rw [Int.floor_eq_iff]
  constructor
  · push_cast
    linarith [h.1]
  · push_cast
    linarith [h.2]

/-- Blue channel of iteration 0: the truncation lands on 18. -/
theorem chan_b_zero : chan 0 4.18879 = 18 := by
  unfold chan
  rw [show (6.28318 : ℝ) * 0 + 4.18879 = 4.18879 by norm_num]
  have h := abs_le.mp sin_b_close
  have h3 := sqrt_three_gt
  have h4 := sqrt_three_lt
  rw [Int.floor_eq_iff]
  constructor
  · push_cast
    linarith [h.1]
  · push_cast
    linarith [h.2]

/-- Rounding the exact 2*pi/3 sinusoid gives 238, not 237. -/
theorem round_g_exact :
    round ((128 : ℝ) + 127 * Real.sin (2 * Real.pi / 3)) = 238 := by
  rw [sin_two_pi_div_three, round_eq]
  have h3 := sqrt_three_gt
  have h4 := sqrt_three_lt
  rw [Int.floor_eq_iff]
  constructor
  · push_cast
    linarith
  · push_cast
    linarith

/-- Claim C6, counterexample: at iterCount 0 with maxIter 1000 the code's
green channel is 237 (truncation of 128 + 127 * sin 2.09439), while the
claim's formula, 128 + 127 * sin(2*pi/3) rounded, is 238. -/
theorem c6_rounded_channels_counterexample :
    getColor 0 1000 ≠
      (round ((128 : ℝ) + 127 * Real.sin 0),
       round ((128 : ℝ) + 127 * Real.sin (2 * Real.pi / 3)),
       round ((128 : ℝ) + 127 * Real.sin (4 * Real.pi / 3))) := by
  intro h
  have hg : (getColor 0 1000).2.1 = 237 := by
    unfold getColor
    rw [if_neg (by norm_num)]
    show chan (((0 : ℤ) : ℝ) / ((1000 : ℤ) : ℝ)) 2.09439 = 237
    rw [show (((0 : ℤ) : ℝ) / ((1000 : ℤ) : ℝ)) = 0 by norm_num]
    exact chan_g_zero
  rw [h] at hg
  have hg' : round ((128 : ℝ) + 127 * Real.sin (2 * Real.pi / 3)) = 237 := hg
  rw [round_g_exact] at hg'
  exact absurd hg' (by norm_num)

/-- Claim C6, amended: color(maxIter, maxIter) is black for every
maxIter; for positive maxIter, color(0, maxIter) is (128, 237, 18) - each
channel is the TRUNCATION of 128 + 127 * sin at the code's phase
constants 0, 2.09439, 4.18879, the green channel coming out one below the
rounded exact 2*pi/3 sinusoid. -/
theorem getColor_boundary (maxIter : ℤ) :
    getColor maxIter maxIter = (0, 0, 0) ∧
    (0 < maxIter → getColor 0 maxIter = (128, 237, 18)) := by
  constructor
  · unfold getColor
    rw [if_pos rfl]
  · intro h
    unfold getColor
    rw [if_neg (by omega)]
    rw [show (((0 : ℤ) : ℝ) / ((maxIter : ℤ) : ℝ)) = 0 by norm_num]
    rw [chan_r_zero, chan_g_zero, chan_b_zero]

/-- Witness for the amended C6 at the configured cap 1000. -/
theorem getColor_boundary_witness :
    (0 : ℤ) < 1000 ∧ getColor 1000 1000 = (0, 0, 0) ∧
    getColor 0 1000 = (128, 237, 18) :=
  ⟨by norm_num, (getColor_boundary 1000).1, (getColor_boundary 1000).2 (by norm_num)⟩

end MB
